import Mathlib

/-!
Verification of `src/compile_files.py`.

The script has two routines:
* `compile_files_to_text(output_file, directories)`: opens the output file in
  write mode and, for each directory in the list, either writes a
  "Directory not found" notice (when `os.path.exists` fails) or writes a
  directory header and then, for every file produced by `os.walk`, a delimited
  block holding the file's decoded content or an error placeholder.
* `generate_directory_tree(base_path, output_file)`: opens the output file in
  append mode and writes an indented directory-tree listing of `base_path`.

The embedding models the filesystem abstractly: `pathExists` is
`os.path.exists`, `walk` is `os.walk` (a list of `(root, dirs, files)`
triples in traversal order), and `readFile` is the result of opening and
reading a file as UTF-8 text (success with the decoded content, a
`UnicodeDecodeError`, or any other exception carrying its message).  File
output is modelled as a string accumulator: each `outfile.write(x)` becomes
`out ++ x`, in program order.
-/

namespace CompileFiles

/-- Result of `open(file_path, 'r', encoding='utf-8')` followed by `read()`:
either the decoded text, a `UnicodeDecodeError`, or any other exception `e`
(carrying the text that Python would interpolate for `{e}`). -/
inductive ReadResult where
  | ok (content : String)
  | decodeError
  | readError (msg : String)
deriving DecidableEq

/-- Abstract filesystem state consulted by the script: `os.path.exists`,
`os.walk` (returning `(root, dirs, files)` triples in traversal order), and
the outcome of reading a file as UTF-8 text. -/
structure FileSystem where
  pathExists : String → Bool
  walk : String → List (String × List String × List String)
  readFile : String → ReadResult

/-- POSIX `os.path.join(a, b)`: `b` if `b` is absolute, otherwise `a` and `b`
joined with a single separator (no separator added when `a` is empty or
already ends in one). -/
def osPathJoin (a b : String) : String :=
  if b.data.head? = some '/' then b
  else if a = "" then b
  else if a.data.getLast? = some '/' then a ++ b
  else a ++ "/" ++ b

/-- The 80-dash separator `"-" * 80` used around each file's content. -/
def dashLine : String := String.mk (List.replicate 80 '-')

/-- The 80-equals separator `"=" * 80` used after directory headers. -/
def eqLine : String := String.mk (List.replicate 80 '=')

/-- Text written for one file inside the try/except of
`compile_files_to_text`: the decoded content plus `"\n"` on success,
`"[Binary or non-text file]\n"` on `UnicodeDecodeError`, and
`"[Error reading file: {e}]\n"` on any other exception. -/
def readPayload (fs : FileSystem) (file_path : String) : String :=
  match fs.readFile file_path with
  | ReadResult.ok content => content ++ "\n"
  | ReadResult.decodeError => "[Binary or non-text file]\n"
  | ReadResult.readError e => "[Error reading file: " ++ e ++ "]\n"

/-- Inner loop `for file in files` of `compile_files_to_text`: for each file,
four sequential writes (header line, dash line, payload, dash line plus blank
line), threaded through the output accumulator. -/
def fileWrites (fs : FileSystem) (root : String) : List String → String → String
  | [], out => out
  | file :: files, out =>
      let file_path := osPathJoin root file
      let out := out ++ ("File: " ++ file_path ++ "\n")
      let out := out ++ (dashLine ++ "\n")
      let out := out ++ readPayload fs file_path
      let out := out ++ (dashLine ++ "\n\n")
      fileWrites fs root files out

/-- Middle loop `for root, _, files in os.walk(directory)` of
`compile_files_to_text`. -/
def walkWrites (fs : FileSystem) : List (String × List String × List String) → String → String
  | [], out => out
  | rdf :: rest, out => walkWrites fs rest (fileWrites fs rdf.1 rdf.2.2 out)

/-- Outer loop `for directory in directories` of `compile_files_to_text`:
a missing directory gets a notice and an equals line and the loop continues;
an existing one gets a header and its walk. -/
def dirWrites (fs : FileSystem) : List String → String → String
  | [], out => out
  | directory :: directories, out =>
      if !fs.pathExists directory then
        dirWrites fs directories
          (out ++ ("Directory not found: " ++ directory ++ "\n") ++ (eqLine ++ "\n\n"))
      else
        dirWrites fs directories
          (walkWrites fs (fs.walk directory)
            (out ++ ("Directory: " ++ directory ++ "\n") ++ (eqLine ++ "\n\n")))

/-- `compile_files_to_text(output_file, directories)`: the output file is
opened with mode `'w'`, so the resulting file content is built from the empty
string, independent of what the file held before. -/
def compile_files_to_text (fs : FileSystem) (directories : List String) : String :=
  dirWrites fs directories ""

/-- Number of `'/'` characters in a string; POSIX `os.sep` is `'/'`, so this
is `.count(os.sep)`. -/
def countSep (s : String) : Nat := s.data.count '/'

/-- Fuel-indexed core of Python `str.replace`: scan left to right, replacing
each non-overlapping occurrence of `pat` with `repl`.  The fuel only bounds
recursion depth; `fuel = s.length` always suffices since each step consumes at
least one character of `s`. -/
def strReplaceFuel (pat repl : List Char) : Nat → List Char → List Char
  | 0, s => s
  | _ + 1, [] => []
  | fuel + 1, c :: rest =>
      if pat ≠ [] ∧ pat.isPrefixOf (c :: rest) then
        repl ++ strReplaceFuel pat repl fuel (rest.drop (pat.length - 1))
      else
        c :: strReplaceFuel pat repl fuel rest

/-- Python `s.replace(pat, repl)` for the non-empty patterns the script uses
(the script always passes the base path as the pattern). -/
def pyReplace (s pat repl : String) : String :=
  if pat = "" then s
  else String.mk (strReplaceFuel pat.data repl.data s.data.length s.data)

/-- POSIX `os.path.basename`: the part of the path after the last `'/'`
(the whole path when it has no `'/'`). -/
def basename (p : String) : String :=
  String.mk ((p.data.reverse.takeWhile (fun c => c != '/')).reverse)

/-- `level = root.replace(base_path, '').count(os.sep)` from
`generate_directory_tree`. -/
def treeLevel (base_path root : String) : Nat :=
  countSep (pyReplace root base_path "")

/-- `' ' * 4 * level`: `4 * n` spaces of indentation. -/
def indentStr (n : Nat) : String := String.mk (List.replicate (4 * n) ' ')

/-- Inner loop `for file in files` of `generate_directory_tree`: one indented
line per file. -/
def treeFileWrites (sub_indent : String) : List String → String → String
  | [], out => out
  | file :: files, out => treeFileWrites sub_indent files (out ++ (sub_indent ++ file ++ "\n"))

/-- Loop `for root, dirs, files in os.walk(base_path)` of
`generate_directory_tree`: per walk entry, one line for the directory
(`{indent}{basename(root)}/`) and one line per contained file, indented one
extra level. -/
def treeWrites (base_path : String) : List (String × List String × List String) → String → String
  | [], out => out
  | rdf :: rest, out =>
      let root := rdf.1
      let level := treeLevel base_path root
      let indent := indentStr level
      let out := out ++ (indent ++ basename root ++ "/\n")
      let sub_indent := indentStr (level + 1)
      let out := treeFileWrites sub_indent rdf.2.2 out
      treeWrites base_path rest out

/-- `generate_directory_tree(base_path, output_file)`: the output file is
opened with mode `'a'`, so the writes extend the prior file content
`prior`. -/
def generate_directory_tree (fs : FileSystem) (base_path : String) (prior : String) : String :=
  let out := prior ++ "Project Directory Tree\n"
  let out := out ++ (eqLine ++ "\n")
  let out := treeWrites base_path (fs.walk base_path) out
  out ++ (eqLine ++ "\n\n")

/-- Concatenation of `f` over a list, used to state the block structure of the
output. -/
def strConcatMap {α : Type} (f : α → String) : List α → String
  | [] => ""
  | x :: xs => f x ++ strConcatMap f xs

/-- The delimited block the collector writes for one visited file. -/
def fileBlock (fs : FileSystem) (p : String) : String :=
  ("File: " ++ p ++ "\n") ++ ((dashLine ++ "\n") ++ (readPayload fs p ++ (dashLine ++ "\n\n")))

/-- All file paths the collector visits under one directory, in visit order:
for each walk entry, `os.path.join(root, file)` for each listed file. -/
def visitedPaths (fs : FileSystem) (d : String) : List String :=
  (fs.walk d).flatMap (fun rdf => rdf.2.2.map (osPathJoin rdf.1))

/-- The portion of the output contributed by one directory of the input list:
either the not-found notice, or the directory header followed by one
`fileBlock` per visited file. -/
def dirSection (fs : FileSystem) (d : String) : String :=
  if !fs.pathExists d then
    ("Directory not found: " ++ d ++ "\n") ++ (eqLine ++ "\n\n")
  else
    ("Directory: " ++ d ++ "\n") ++ ((eqLine ++ "\n\n")
      ++ strConcatMap (fileBlock fs) (visitedPaths fs d))

/-- The lines contributed to the tree section by one walk entry. -/
def treeDirLines (base_path : String) (rdf : String × List String × List String) : String :=
  (indentStr (treeLevel base_path rdf.1) ++ basename rdf.1 ++ "/\n")
    ++ strConcatMap (fun f => indentStr (treeLevel base_path rdf.1 + 1) ++ f ++ "\n") rdf.2.2

/-- The whole tree section appended by `generate_directory_tree`. -/
def treeSection (fs : FileSystem) (base_path : String) : String :=
  ("Project Directory Tree\n" ++ (eqLine ++ "\n"))
    ++ (strConcatMap (treeDirLines base_path) (fs.walk base_path) ++ (eqLine ++ "\n\n"))

/-- Splitting a character list at a separator character, keeping empty
groups; mirrors splitting a file's text into lines at `'\n'`. -/
def splitOnSep (sep : Char) : List Char → List (List Char)
  | [] => [[]]
  | c :: rest =>
      let r := splitOnSep sep rest
      if c = sep then [] :: r
      else
        match r with
        | [] => [[c]]
        | g :: gs => (c :: g) :: gs

/-- The lines of a string: split its characters at every newline. -/
def strLines (s : String) : List String := (splitOnSep '\x0a' s.data).map String.mk

/-- File-content update performed by running `compile_files_to_text` on an
output file that previously held `prior`: mode `'w'` truncates, so `prior` is
discarded and the new content depends only on the filesystem and the
directory list. -/
def collectorFileUpdate (fs : FileSystem) (directories : List String) (prior : String) : String :=
  compile_files_to_text fs directories

/-- Example filesystem: directory `A` holds a readable text file, a binary
file, and a subdirectory with an unreadable file; `f.txt` is an existing
plain file (so `os.walk` on it yields nothing); every other path is
absent. -/
def fsEx : FileSystem where
  pathExists := fun p => p == "A" || p == "f.txt"
  walk := fun d =>
    if d == "A" then [("A", ["sub"], ["a.txt", "bin.dat"]), ("A/sub", [], ["err.txt"])]
    else []
  readFile := fun p =>
    if p == "A/a.txt" then ReadResult.ok "hello"
    else if p == "A/bin.dat" then ReadResult.decodeError
    else if p == "A/sub/err.txt" then ReadResult.readError "Permission denied"
    else ReadResult.readError "No such file or directory"

/-- A second filesystem agreeing with `fsEx` everywhere the collector looks
when run on `["A"]`, but differing on untouched paths (`Z` exists here, and
an unvisited path reads differently). -/
def fsEx2 : FileSystem where
  pathExists := fun p => p == "A" || p == "Z"
  walk := fun d =>
    if d == "A" then [("A", ["sub"], ["a.txt", "bin.dat"]), ("A/sub", [], ["err.txt"])]
    else if d == "Z" then [("Z", [], ["z.txt"])]
    else []
  readFile := fun p =>
    if p == "A/a.txt" then ReadResult.ok "hello"
    else if p == "A/bin.dat" then ReadResult.decodeError
    else if p == "A/sub/err.txt" then ReadResult.readError "Permission denied"
    else ReadResult.ok "unrelated"

/-- Example filesystem for the tree printer: base directory `B` holds a
subdirectory `A` that holds `a.txt`. -/
def fsTree : FileSystem where
  pathExists := fun p => p == "B" || p == "B/A" || p == "B/A/a.txt"
  walk := fun d =>
    if d == "B" then [("B", ["A"], []), ("B/A", [], ["a.txt"])]
    else if d == "B/A" then [("B/A", [], ["a.txt"])]
    else []
  readFile := fun p =>
    if p == "B/A/a.txt" then ReadResult.ok "hello"
    else ReadResult.readError "No such file or directory"

/-- Concatenation over an appended list splits into two concatenations. -/
theorem strConcatMap_append {α : Type} (f : α → String) (l₁ l₂ : List α) :
    strConcatMap f (l₁ ++ l₂) = strConcatMap f l₁ ++ strConcatMap f l₂ := by
  induction l₁ with
  | nil => simp [strConcatMap, String.empty_append]
  | cons x xs ih => simp [strConcatMap, ih, String.append_assoc]

/-- Concatenation over a mapped list. -/
theorem strConcatMap_map {α β : Type} (f : β → String) (g : α → β) (l : List α) :
    strConcatMap f (l.map g) = strConcatMap (fun x => f (g x)) l := by
  induction l with
  | nil => rfl
  | cons x xs ih => simp [strConcatMap, ih]

/-- Concatenation over a flattened list of lists. -/
theorem strConcatMap_flatMap {α β : Type} (f : β → String) (g : α → List β) (l : List α) :
    strConcatMap f (l.flatMap g) = strConcatMap (fun x => strConcatMap f (g x)) l := by
  induction l with
  | nil => rfl
  | cons x xs ih => simp [strConcatMap, List.flatMap_cons, strConcatMap_append, ih]

/-- Pointwise equal functions concatenate to the same string. -/
theorem strConcatMap_congr {α : Type} {f g : α → String} {l : List α}
    (h : ∀ x ∈ l, f x = g x) : strConcatMap f l = strConcatMap g l := by
  induction l with
  | nil => rfl
  | cons x xs ih =>
      simp only [strConcatMap]
      rw [h x (List.mem_cons_self x xs), ih (fun y hy => h y (List.mem_cons_of_mem x hy))]

/-- The inner file loop appends exactly one `fileBlock` per listed file. -/
theorem fileWrites_eq (fs : FileSystem) (root : String) (files : List String) (out : String) :
    fileWrites fs root files out =
      out ++ strConcatMap (fun f => fileBlock fs (osPathJoin root f)) files := by
  induction files generalizing out with
  | nil => simp [fileWrites, strConcatMap, String.append_empty]
  | cons file files ih =>
      simp only [fileWrites, strConcatMap]
      rw [ih]
      simp [fileBlock, String.append_assoc]

/-- The walk loop appends the blocks of every walk entry in order. -/
theorem walkWrites_eq (fs : FileSystem) (l : List (String × List String × List String))
    (out : String) :
    walkWrites fs l out =
      out ++ strConcatMap
        (fun rdf => strConcatMap (fun f => fileBlock fs (osPathJoin rdf.1 f)) rdf.2.2) l := by
  induction l generalizing out with
  | nil => simp [walkWrites, strConcatMap, String.append_empty]
  | cons rdf rest ih =>
      simp only [walkWrites, strConcatMap]
      rw [ih, fileWrites_eq]
      simp [String.append_assoc]

/-- The blocks of the visited paths of a directory are exactly the blocks
produced by walking it. -/
theorem strConcatMap_visitedPaths (fs : FileSystem) (d : String) :
    strConcatMap (fileBlock fs) (visitedPaths fs d) =
      strConcatMap
        (fun rdf => strConcatMap (fun f => fileBlock fs (osPathJoin rdf.1 f)) rdf.2.2)
        (fs.walk d) := by
  unfold visitedPaths
  rw [strConcatMap_flatMap]
  exact strConcatMap_congr (fun rdf _ => strConcatMap_map _ _ _)

/-- The directory loop appends exactly one `dirSection` per input
directory. -/
theorem dirWrites_eq (fs : FileSystem) (dirs : List String) (out : String) :
    dirWrites fs dirs out = out ++ strConcatMap (dirSection fs) dirs := by
  induction dirs generalizing out with
  | nil => simp [dirWrites, strConcatMap, String.append_empty]
  | cons d rest ih =>
      simp only [dirWrites, strConcatMap]
      cases h : fs.pathExists d with
      | false =>
          simp only [h, Bool.not_false, if_pos]
          rw [ih]
          simp [dirSection, h, String.append_assoc]
      | true =>
          simp only [h, Bool.not_true, Bool.false_eq_true, if_false]
          rw [ih, walkWrites_eq]
          simp [dirSection, h, strConcatMap_visitedPaths, String.append_assoc]

/-- The collector's output is the concatenation of one section per input
directory. -/
theorem compile_eq_sections (fs : FileSystem) (dirs : List String) :
    compile_files_to_text fs dirs = strConcatMap (dirSection fs) dirs := by
  unfold compile_files_to_text
  rw [dirWrites_eq, String.empty_append]

/-- The tree printer's inner file loop appends one indented line per file. -/
theorem treeFileWrites_eq (sub_indent : String) (files : List String) (out : String) :
    treeFileWrites sub_indent files out =
      out ++ strConcatMap (fun f => sub_indent ++ f ++ "\n") files := by
  induction files generalizing out with
  | nil => simp [treeFileWrites, strConcatMap, String.append_empty]
  | cons file files ih =>
      simp only [treeFileWrites, strConcatMap]
      rw [ih]
      simp [String.append_assoc]

/-- The tree printer's walk loop appends the lines of every walk entry. -/
theorem treeWrites_eq (base_path : String) (l : List (String × List String × List String))
    (out : String) :
    treeWrites base_path l out = out ++ strConcatMap (treeDirLines base_path) l := by
  induction l generalizing out with
  | nil => simp [treeWrites, strConcatMap, String.append_empty]
  | cons rdf rest ih =>
      simp only [treeWrites, strConcatMap]
      rw [ih, treeFileWrites_eq]
      simp [treeDirLines, String.append_assoc]

/-- The tree printer appends exactly `treeSection` after the prior content. -/
theorem tree_eq (fs : FileSystem) (base_path prior : String) :
    generate_directory_tree fs base_path prior = prior ++ treeSection fs base_path := by
  simp only [generate_directory_tree]
  rw [treeWrites_eq]
  simp [treeSection, String.append_assoc]

/-- The number of visited paths under a directory is the total number of
files over its walk entries. -/
theorem visitedPaths_length (fs : FileSystem) (d : String) :
    (visitedPaths fs d).length = ((fs.walk d).map (fun rdf => rdf.2.2.length)).sum := by
  unfold visitedPaths
  induction fs.walk d with
  | nil => rfl
  | cons rdf rest ih => simp [List.flatMap_cons, ih]

/-- C1: for every filesystem and directory list, the collector's output is
the concatenation of one section per listed directory; each existing
directory's section is its header followed by exactly one `fileBlock` per
visited file (each block carrying that file's content or a placeholder via
`readPayload`); and the number of visited files is the total file count over
the walk. -/
theorem c1_one_block_per_visited_file (fs : FileSystem) (dirs : List String) :
    compile_files_to_text fs dirs = strConcatMap (dirSection fs) dirs ∧
    (∀ d, fs.pathExists d = true →
      dirSection fs d =
        ("Directory: " ++ d ++ "\n") ++ ((eqLine ++ "\n\n")
          ++ strConcatMap (fileBlock fs) (visitedPaths fs d))) ∧
    (∀ d, (visitedPaths fs d).length = ((fs.walk d).map (fun rdf => rdf.2.2.length)).sum) := by
  refine ⟨compile_eq_sections fs dirs, ?_, fun d => visitedPaths_length fs d⟩
  intro d h
  simp [dirSection, h]

/-- Witness for C1 at the concrete filesystem `fsEx` with directory list
`["A"]`. -/
theorem c1_witness :
    compile_files_to_text fsEx ["A"] = strConcatMap (dirSection fsEx) ["A"] ∧
    dirSection fsEx "A" =
      ("Directory: " ++ "A" ++ "\n") ++ ((eqLine ++ "\n\n")
        ++ strConcatMap (fileBlock fsEx) (visitedPaths fsEx "A")) :=
  ⟨(c1_one_block_per_visited_file fsEx ["A"]).1,
   (c1_one_block_per_visited_file fsEx ["A"]).2.1 "A" (by decide)⟩

/-- C2: a file whose read raises `UnicodeDecodeError` gets the fixed
`[Binary or non-text file]` placeholder line in its block, any other read
error gets an `[Error reading file: ...]` line, and the run still produces
the full concatenation of sections for every directory and file, so no
per-file error aborts processing of subsequent files. -/
theorem c2_read_errors_inline (fs : FileSystem) (dirs : List String) (p e : String) :
    (fs.readFile p = ReadResult.decodeError →
      fileBlock fs p = ("File: " ++ p ++ "\n") ++ ((dashLine ++ "\n")
        ++ ("[Binary or non-text file]\n" ++ (dashLine ++ "\n\n")))) ∧
    (fs.readFile p = ReadResult.readError e →
      fileBlock fs p = ("File: " ++ p ++ "\n") ++ ((dashLine ++ "\n")
        ++ (("[Error reading file: " ++ e ++ "]\n") ++ (dashLine ++ "\n\n")))) ∧
    compile_files_to_text fs dirs = strConcatMap (dirSection fs) dirs := by
  refine ⟨fun h => ?_, fun h => ?_, compile_eq_sections fs dirs⟩
  · simp [fileBlock, readPayload, h]
  · simp [fileBlock, readPayload, h]

/-- Witness for C2 at `fsEx`: the binary file and the unreadable file each
get their placeholder line. -/
theorem c2_witness :
    fileBlock fsEx "A/bin.dat" = ("File: " ++ "A/bin.dat" ++ "\n") ++ ((dashLine ++ "\n")
      ++ ("[Binary or non-text file]\n" ++ (dashLine ++ "\n\n"))) ∧
    fileBlock fsEx "A/sub/err.txt" = ("File: " ++ "A/sub/err.txt" ++ "\n") ++ ((dashLine ++ "\n")
      ++ (("[Error reading file: " ++ "Permission denied" ++ "]\n") ++ (dashLine ++ "\n\n"))) :=
  ⟨(c2_read_errors_inline fsEx [] "A/bin.dat" "").1 (by decide),
   (c2_read_errors_inline fsEx [] "A/sub/err.txt" "Permission denied").2.1 (by decide)⟩

/-- C3: a listed directory that does not exist contributes exactly the
notice `Directory not found: <path>` followed by the 80-character equals
line (and nothing else — in particular no `File:` blocks), and the collector
then processes the rest of the list. -/
theorem c3_missing_directory (fs : FileSystem) (d : String) (rest : List String)
    (h : fs.pathExists d = false) :
    compile_files_to_text fs (d :: rest) =
      ((("Directory not found: " ++ d ++ "\n") ++ (eqLine ++ "\n\n"))
        ++ compile_files_to_text fs rest) ∧
    dirSection fs d = ("Directory not found: " ++ d ++ "\n") ++ (eqLine ++ "\n\n") ∧
    eqLine.length = 80 := by
  have hs : dirSection fs d = ("Directory not found: " ++ d ++ "\n") ++ (eqLine ++ "\n\n") := by
    simp [dirSection, h]
  refine ⟨?_, hs, by decide⟩
  rw [compile_eq_sections, compile_eq_sections]
  simp only [strConcatMap, hs]

/-- Witness for C3: `Z` does not exist in `fsEx`, and the run continues
with `A`. -/
theorem c3_witness :
    compile_files_to_text fsEx ["Z", "A"] =
      ((("Directory not found: " ++ "Z" ++ "\n") ++ (eqLine ++ "\n\n"))
        ++ compile_files_to_text fsEx ["A"]) ∧
    dirSection fsEx "Z" = ("Directory not found: " ++ "Z" ++ "\n") ++ (eqLine ++ "\n\n") ∧
    eqLine.length = 80 :=
  c3_missing_directory fsEx "Z" ["A"] (by decide)

/-- C4: every visited file's block is, in order: the `File: <path>` line, a
line of exactly 80 dash characters, the payload (the file's content followed
by a newline, or the placeholder line), the 80-dash line again, and a blank
line. -/
theorem c4_block_shape (fs : FileSystem) (p : String) :
    fileBlock fs p =
      ("File: " ++ p ++ "\n") ++ ((dashLine ++ "\n")
        ++ (readPayload fs p ++ (dashLine ++ "\n\n"))) ∧
    dashLine.length = 80 ∧
    (∀ c ∈ dashLine.data, c = '-') ∧
    (∀ content, fs.readFile p = ReadResult.ok content → readPayload fs p = content ++ "\n") ∧
    (fs.readFile p = ReadResult.decodeError → readPayload fs p = "[Binary or non-text file]\n") := by
  refine ⟨rfl, by decide, by decide, fun content h => ?_, fun h => ?_⟩
  · simp [readPayload, h]
  · simp [readPayload, h]

/-- Witness for C4 at `fsEx`: the readable file's payload is its content
plus a newline. -/
theorem c4_witness : readPayload fsEx "A/a.txt" = "hello" ++ "\n" :=
  (c4_block_shape fsEx "A/a.txt").2.2.2.1 "hello" (by decide)

/-- C5: `generate_directory_tree` opens the output file in append mode, so
for every prior content the result is exactly the prior content followed by
the tree section — the previous content is an unchanged prefix of the new
content. -/
theorem c5_tree_appends_only (fs : FileSystem) (base_path prior : String) :
    generate_directory_tree fs base_path prior = prior ++ treeSection fs base_path :=
  tree_eq fs base_path prior

/-- C6 counterexample: in the filesystem `fsTree`, base directory `B` holds
subdirectory `A` with file `a.txt` (as its walk shows), yet no line of the
tree output is the unindented `A/` the claim requires — the subdirectory's
line is indented one 4-space level. -/
theorem c6_counterexample :
    ("B/A", ([] : List String), ["a.txt"]) ∈ fsTree.walk "B" ∧
    ¬ "A/" ∈ strLines (generate_directory_tree fsTree "B" "") := by decide

/-- C6 amended: the subdirectory `A` of base path `B` is printed at one
4-space indentation level (its line is `    A/`, since its walk root `B/A`
is at depth 1 below the base) and its file at one further level (the line
`        a.txt`); in general each extra level adds exactly 4 spaces of
indentation, so files sit exactly one 4-space level deeper than their
directory's line. -/
theorem c6_tree_indentation :
    strLines (generate_directory_tree fsTree "B" "") =
      ["Project Directory Tree", eqLine, "B/", "    A/", "        a.txt", eqLine, "", ""] ∧
    (∀ n, (indentStr (n + 1)).length = (indentStr n).length + 4) ∧
    (∀ base rdf, treeDirLines base rdf =
      (indentStr (treeLevel base rdf.1) ++ basename rdf.1 ++ "/\n")
        ++ strConcatMap
            (fun f => indentStr (treeLevel base rdf.1 + 1) ++ f ++ "\n") rdf.2.2) := by
  refine ⟨by decide, fun n => ?_, fun base rdf => rfl⟩
  simp [indentStr]
  omega

/-- C7: the collector's output is determined by the parts of the filesystem
it consults — existence of the listed directories, their walks, and the read
results of the visited files. Two filesystem states agreeing there yield
byte-identical output, so a rerun on an unchanged filesystem reproduces the
same bytes. -/
theorem c7_output_determined_by_inputs (fs₁ fs₂ : FileSystem) (dirs : List String)
    (hex : ∀ d ∈ dirs, fs₁.pathExists d = fs₂.pathExists d)
    (hw : ∀ d ∈ dirs, fs₁.walk d = fs₂.walk d)
    (hr : ∀ d ∈ dirs, ∀ p ∈ visitedPaths fs₁ d, fs₁.readFile p = fs₂.readFile p) :
    compile_files_to_text fs₁ dirs = compile_files_to_text fs₂ dirs := by
  rw [compile_eq_sections, compile_eq_sections]
  refine strConcatMap_congr (fun d hd => ?_)
  have h1 := hex d hd
  have hv : visitedPaths fs₁ d = visitedPaths fs₂ d := by
    simp [visitedPaths, hw d hd]
  have hblocks : strConcatMap (fileBlock fs₁) (visitedPaths fs₂ d) =
      strConcatMap (fileBlock fs₂) (visitedPaths fs₂ d) := by
    refine strConcatMap_congr (fun p hp => ?_)
    rw [← hv] at hp
    simp [fileBlock, readPayload, hr d hd p hp]
  simp only [dirSection, ← h1, hv, hblocks]

/-- Witness for C7: `fsEx` and `fsEx2` differ on untouched paths but agree
on everything the run over `["A"]` consults, so the outputs coincide. -/
theorem c7_witness : compile_files_to_text fsEx ["A"] = compile_files_to_text fsEx2 ["A"] :=
  c7_output_determined_by_inputs fsEx fsEx2 ["A"] (by decide) (by decide) (by decide)

/-- C8: the collector opens the output file in write mode, so the resulting
file content is independent of any prior content — unlike the tree printer,
whose result extends the prior content. -/
theorem c8_collector_overwrites (fs : FileSystem) (dirs : List String)
    (prior₁ prior₂ base : String) :
    collectorFileUpdate fs dirs prior₁ = collectorFileUpdate fs dirs prior₂ ∧
    collectorFileUpdate fs dirs prior₁ = compile_files_to_text fs dirs ∧
    generate_directory_tree fs base prior₁ = prior₁ ++ treeSection fs base :=
  ⟨rfl, rfl, tree_eq fs base prior₁⟩

/-- C9: for a successfully read and decoded file the collector writes the
content with exactly one extra newline appended — the block equals the one
built from `content ++ "\n"`, and differs from the hypothetical block that
would hold the content verbatim. -/
theorem c9_content_gets_extra_newline (fs : FileSystem) (p c : String)
    (h : fs.readFile p = ReadResult.ok c) :
    readPayload fs p = c ++ "\n" ∧
    fileBlock fs p = ("File: " ++ p ++ "\n") ++ ((dashLine ++ "\n")
      ++ ((c ++ "\n") ++ (dashLine ++ "\n\n"))) ∧
    fileBlock fs p ≠ ("File: " ++ p ++ "\n") ++ ((dashLine ++ "\n")
      ++ (c ++ (dashLine ++ "\n\n"))) := by
  have hp : readPayload fs p = c ++ "\n" := by simp [readPayload, h]
  refine ⟨hp, by simp [fileBlock, hp], fun heq => ?_⟩
  have hlen := congrArg String.length heq
  have hn : ("\n" : String).length = 1 := by decide
  simp only [fileBlock, hp, String.length_append, hn] at hlen
  omega

/-- Witness for C9 at `fsEx`: the payload of `A/a.txt` is `hello` plus a
newline. -/
theorem c9_witness :
    readPayload fsEx "A/a.txt" = "hello" ++ "\n" ∧
    fileBlock fsEx "A/a.txt" = ("File: " ++ "A/a.txt" ++ "\n") ++ ((dashLine ++ "\n")
      ++ (("hello" ++ "\n") ++ (dashLine ++ "\n\n"))) ∧
    fileBlock fsEx "A/a.txt" ≠ ("File: " ++ "A/a.txt" ++ "\n") ++ ((dashLine ++ "\n")
      ++ ("hello" ++ (dashLine ++ "\n\n"))) :=
  c9_content_gets_extra_newline fsEx "A/a.txt" "hello" (by decide)

/-- C10: a listed path that exists but is a plain file (so its walk yields
no entries) gets a `Directory: <path>` header section with zero `File:`
blocks — not a not-found notice — and the run continues with the rest of the
list. -/
theorem c10_plain_file_in_list (fs : FileSystem) (p : String) (rest : List String)
    (hex : fs.pathExists p = true) (hw : fs.walk p = []) :
    dirSection fs p = ("Directory: " ++ p ++ "\n") ++ (eqLine ++ "\n\n") ∧
    visitedPaths fs p = [] ∧
    compile_files_to_text fs (p :: rest) =
      ((("Directory: " ++ p ++ "\n") ++ (eqLine ++ "\n\n"))
        ++ compile_files_to_text fs rest) := by
  have hv : visitedPaths fs p = [] := by simp [visitedPaths, hw]
  have hs : dirSection fs p = ("Directory: " ++ p ++ "\n") ++ (eqLine ++ "\n\n") := by
    simp [dirSection, hex, hv, strConcatMap, String.append_empty, String.append_assoc]
  refine ⟨hs, hv, ?_⟩
  rw [compile_eq_sections, compile_eq_sections]
  simp only [strConcatMap, hs]

/-- Witness for C10: `f.txt` exists in `fsEx` but walking it yields
nothing, so it gets a bare directory header and the run continues with
`A`. -/
theorem c10_witness :
    dirSection fsEx "f.txt" = ("Directory: " ++ "f.txt" ++ "\n") ++ (eqLine ++ "\n\n") ∧
    visitedPaths fsEx "f.txt" = [] ∧
    compile_files_to_text fsEx ["f.txt", "A"] =
      ((("Directory: " ++ "f.txt" ++ "\n") ++ (eqLine ++ "\n\n"))
        ++ compile_files_to_text fsEx ["A"]) :=
  c10_plain_file_in_list fsEx "f.txt" ["A"] (by decide) (by decide)

end CompileFiles
